import Mathlib

/-!
Shallow embedding of `src/main.py` (Jpdf2json): a single-endpoint FastAPI
service that extracts text from an uploaded PDF, sends it to the Gemini API
with a fixed prompt, strips Markdown code fences from the reply, parses it
as JSON and returns it as a downloadable attachment.

Strings are modelled as Lean `String` (lists of characters underneath);
Python exceptions as an explicit sum; the external PDF library and the AI
service as request-scoped inputs of the handler.  `str.replace(old, '')`
(deletion form, the only one used) is modelled by `pyReplaceDel`, scanning
left to right and never rescanning text joined by a removal, exactly as
CPython does.  `json.loads` is modelled by a standard JSON parser
(`json_loads`) over a JSON value type.
-/

namespace Jpdf2json

/-- The backtick character, written by code point to keep source plain. -/
def btick : Char := Char.ofNat 96

/-- Characters of the fence marker. -/
def fence3 : List Char := [btick, btick, btick]

/-- Characters of the json-tagged fence marker. -/
def fenceJson : List Char := fence3 ++ [Char.ofNat 106, Char.ofNat 115, Char.ofNat 111, Char.ofNat 110]

/-- Boolean sublist-at-front test on character lists. -/
def isPfx : List Char → List Char → Bool
  | [], _ => true
  | _ :: _, [] => false
  | a :: ps, b :: s => a = b && isPfx ps s

/-- Fuelled scanner behind `replaceDrop`; the fuel only bounds the
recursion depth and is immaterial once it is at least the input length. -/
def replaceDropF (p : Char) (ps : List Char) : Nat → List Char → List Char
  | 0, s => s
  | Nat.succ f, s =>
    match s with
    | [] => []
    | c :: t =>
      if isPfx (p :: ps) (c :: t) then
        replaceDropF p ps f (List.drop ps.length t)
      else
        c :: replaceDropF p ps f t

/-- One pass of Python's `str.replace(pat, '')` for the non-empty pattern
`p :: ps`: scan left to right; on a match skip the matched characters and
continue after them (newly adjacent output characters are not rescanned),
otherwise emit one character and continue. -/
def replaceDrop (p : Char) (ps : List Char) (s : List Char) : List Char :=
  replaceDropF p ps s.length s

/-- Python `s.replace(pat, '')` on character lists (empty pattern is the
identity; the program only uses non-empty patterns). -/
def pyReplaceDel (pat : List Char) (s : List Char) : List Char :=
  match pat with
  | [] => s
  | p :: ps => replaceDrop p ps s

/-- Boolean substring test on character lists. -/
def hasSub (pat : List Char) : List Char → Bool
  | [] => pat.isEmpty
  | c :: t => isPfx pat (c :: t) || hasSub pat t

/-- Number of leading occurrences of `c`. -/
def leadCount (c : Char) : List Char → Nat
  | [] => 0
  | a :: t => if a = c then leadCount c t + 1 else 0

/-- Python `str.replace(pat, '')` lifted to `String`. -/
def replaceDel (s pat : String) : String :=
  String.mk (pyReplaceDel pat.data s.data)

/-- Boolean substring test lifted to `String`. -/
def hasSubstrS (pat s : String) : Bool :=
  hasSub pat.data s.data

/-- Python whitespace: exactly the characters `str.strip()` (equivalently
`str.isspace()`) removes — 0x09–0x0D, 0x1C–0x1F, space, next line 0x85,
no-break space 0xA0, ogham space 0x1680, the en/em spaces 0x2000–0x200A,
line and paragraph separators 0x2028 and 0x2029, narrow no-break space
0x202F, mathematical space 0x205F, and ideographic space 0x3000. -/
def isPySpace (c : Char) : Bool :=
  (9 ≤ c.toNat && c.toNat ≤ 13) || (28 ≤ c.toNat && c.toNat ≤ 32) ||
  c.toNat = 133 || c.toNat = 160 || c.toNat = 5760 ||
  (8192 ≤ c.toNat && c.toNat ≤ 8202) || c.toNat = 8232 || c.toNat = 8233 ||
  c.toNat = 8239 || c.toNat = 8287 || c.toNat = 12288

/-- Python `str.strip()`: remove leading and trailing whitespace. -/
def pyStrip (s : String) : String :=
  String.mk (((s.data.dropWhile isPySpace).reverse.dropWhile isPySpace).reverse)

/-- Line 144 of `main.py` after the `strip()`:
`.replace('```json', '').replace('```', '')`. -/
def stripFences (s : String) : String :=
  String.mk (pyReplaceDel fence3 (pyReplaceDel fenceJson s.data))

/-- JSON values as produced by Python's `json.loads`: objects keep first
insertion position with last-wins values for duplicate keys (like `dict`);
numbers are kept as exact rationals; `NaN`, `Infinity` and `-Infinity`
(accepted by `json.loads` by default) get their own constructors. -/
inductive Json where
  | null : Json
  | bool (b : Bool) : Json
  | num (q : Rat) : Json
  | str (s : String) : Json
  | arr (elems : List Json) : Json
  | obj (members : List (String × Json)) : Json
  | nanVal : Json
  | infVal (neg : Bool) : Json

/-- JSON whitespace skipped between tokens. -/
def skipWs (s : List Char) : List Char :=
  s.dropWhile (fun c => c = ' ' || c = Char.ofNat 9 || c = Char.ofNat 10 || c = Char.ofNat 13)

/-- Value of a hexadecimal digit. -/
def hexVal (c : Char) : Option Nat :=
  if c.isDigit then some (c.toNat - 48)
  else if 'a' ≤ c ∧ c ≤ 'f' then some (c.toNat - 87)
  else if 'A' ≤ c ∧ c ≤ 'F' then some (c.toNat - 55)
  else none

/-- Four hexadecimal digits. -/
def hex4 : List Char → Option (Nat × List Char)
  | a :: b :: c :: d :: t => do
    let x ← hexVal a
    let y ← hexVal b
    let z ← hexVal c
    let w ← hexVal d
    some (((x * 16 + y) * 16 + z) * 16 + w, t)
  | _ => none

/-- Body of a JSON string (opening quote already consumed), accumulating
decoded characters. Unescaped control characters are rejected (`json.loads`
in its default strict mode); surrogate pairs in `\uXXXX` escapes are
combined. -/
def pStrAux : Nat → List Char → List Char → Option (List Char × List Char)
  | 0, _, _ => none
  | Nat.succ f, s, acc =>
    match s with
    | [] => none
    | c :: t =>
      if c = '"' then some (acc.reverse, t)
      else if c = '\\' then
        match t with
        | [] => none
        | e :: t2 =>
          if e = '"' ∨ e = '\\' ∨ e = '/' then pStrAux f t2 (e :: acc)
          else if e = 'b' then pStrAux f t2 (Char.ofNat 8 :: acc)
          else if e = 'f' then pStrAux f t2 (Char.ofNat 12 :: acc)
          else if e = 'n' then pStrAux f t2 (Char.ofNat 10 :: acc)
          else if e = 'r' then pStrAux f t2 (Char.ofNat 13 :: acc)
          else if e = 't' then pStrAux f t2 (Char.ofNat 9 :: acc)
          else if e = 'u' then
            match hex4 t2 with
            | none => none
            | some (n, t3) =>
              if 0xD800 ≤ n ∧ n ≤ 0xDBFF then
                match t3 with
                | u1 :: u2 :: t4 =>
                  if u1 = '\\' ∧ u2 = 'u' then
                    match hex4 t4 with
                    | some (m, t5) =>
                      if 0xDC00 ≤ m ∧ m ≤ 0xDFFF then
                        pStrAux f t5 (Char.ofNat (0x10000 + (n - 0xD800) * 0x400 + (m - 0xDC00)) :: acc)
                      else pStrAux f t3 (Char.ofNat n :: acc)
                    | none => pStrAux f t3 (Char.ofNat n :: acc)
                  else pStrAux f t3 (Char.ofNat n :: acc)
                | _ => pStrAux f t3 (Char.ofNat n :: acc)
              else pStrAux f t3 (Char.ofNat n :: acc)
          else none
      else if c.toNat < 32 then none
      else pStrAux f t (c :: acc)

/-- A JSON string literal after its opening quote. -/
def pString (s : List Char) : Option (String × List Char) :=
  match pStrAux (s.length + 1) s [] with
  | some (cs, rest) => some (String.mk cs, rest)
  | none => none

/-- Numeric value of a digit run. -/
def digitsVal (ds : List Char) : Nat :=
  ds.foldl (fun n c => n * 10 + (c.toNat - 48)) 0

/-- Optional fraction part `.digits` of a JSON number. -/
def pFrac : List Char → Option (Rat × List Char)
  | [] => some (0, [])
  | d :: t =>
    if d = '.' then
      match t.takeWhile Char.isDigit with
      | [] => none
      | ds => some ((digitsVal ds : Rat) / ((10 : Rat) ^ ds.length), t.dropWhile Char.isDigit)
    else some (0, d :: t)

/-- Optional exponent part `e[+-]digits` of a JSON number. -/
def pExp : List Char → Option (Int × List Char)
  | [] => some (0, [])
  | c :: t =>
    if c = 'e' ∨ c = 'E' then
      let sgn : Bool × List Char :=
        match t with
        | d :: t2 => if d = '+' then (false, t2) else if d = '-' then (true, t2) else (false, t)
        | [] => (false, t)
      match sgn.2.takeWhile Char.isDigit with
      | [] => none
      | ds =>
        let e : Int := digitsVal ds
        some (if sgn.1 then -e else e, sgn.2.dropWhile Char.isDigit)
    else some (0, c :: t)

/-- A JSON number per the JSON grammar: optional minus, `0` or a nonzero
digit run, optional fraction, optional exponent. -/
def pNumber (s : List Char) : Option (Rat × List Char) := do
  let sgn : Bool × List Char :=
    match s with
    | c :: t => if c = '-' then (true, t) else (false, s)
    | [] => (false, s)
  match sgn.2 with
  | [] => none
  | c :: t =>
    if c.isDigit = false then none
    else
      let ip : Nat × List Char :=
        if c = '0' then (0, t)
        else (digitsVal (c :: t.takeWhile Char.isDigit), t.dropWhile Char.isDigit)
      let (fv, s3) ← pFrac ip.2
      let (ev, s4) ← pExp s3
      let mag : Rat := ((ip.1 : Rat) + fv) * (10 : Rat) ^ ev
      some (if sgn.1 then -mag else mag, s4)

/-- Insertion into a Python `dict` model: first position kept, value
overwritten on duplicate key. -/
def dictInsert : List (String × Json) → String → Json → List (String × Json)
  | [], k, v => [(k, v)]
  | kv :: t, k, v => if kv.1 = k then (k, v) :: t else kv :: dictInsert t k v

mutual

/-- A JSON value; the fuel bounds recursion depth. -/
def pValue : Nat → List Char → Option (Json × List Char)
  | 0, _ => none
  | Nat.succ f, s =>
    match s with
    | [] => none
    | c :: t =>
      if c = '"' then
        match pString t with
        | some (str, r) => some (Json.str str, r)
        | none => none
      else if c = Char.ofNat 123 then
        let s1 := skipWs t
        match s1 with
        | d :: t1 => if d = Char.ofNat 125 then some (Json.obj [], t1) else pMembers f s1 []
        | [] => none
      else if c = '[' then
        let s1 := skipWs t
        match s1 with
        | d :: t1 => if d = ']' then some (Json.arr [], t1) else pElems f s1 []
        | [] => none
      else if isPfx "true".data (c :: t) then some (Json.bool true, List.drop 3 t)
      else if isPfx "false".data (c :: t) then some (Json.bool false, List.drop 4 t)
      else if isPfx "null".data (c :: t) then some (Json.null, List.drop 3 t)
      else if isPfx "NaN".data (c :: t) then some (Json.nanVal, List.drop 2 t)
      else if isPfx "Infinity".data (c :: t) then some (Json.infVal false, List.drop 7 t)
      else if isPfx "-Infinity".data (c :: t) then some (Json.infVal true, List.drop 8 t)
      else
        match pNumber (c :: t) with
        | some (q, r) => some (Json.num q, r)
        | none => none

/-- Members of a JSON object, after `{` (and not immediately `}`). -/
def pMembers : Nat → List Char → List (String × Json) → Option (Json × List Char)
  | 0, _, _ => none
  | Nat.succ f, s, acc =>
    match s with
    | [] => none
    | c :: t =>
      if c = '"' then
        match pString t with
        | some (k, r1) =>
          match skipWs r1 with
          | d :: r2 =>
            if d = ':' then
              match pValue f (skipWs r2) with
              | some (v, r3) =>
                match skipWs r3 with
                | e :: r4 =>
                  if e = ',' then pMembers f (skipWs r4) (dictInsert acc k v)
                  else if e = Char.ofNat 125 then some (Json.obj (dictInsert acc k v), r4)
                  else none
                | [] => none
              | none => none
            else none
          | [] => none
        | none => none
      else none

/-- Elements of a JSON array, after `[` (and not immediately `]`). -/
def pElems : Nat → List Char → List Json → Option (Json × List Char)
  | 0, _, _ => none
  | Nat.succ f, s, acc =>
    match pValue f s with
    | some (v, r1) =>
      match skipWs r1 with
      | e :: r2 =>
        if e = ',' then pElems f (skipWs r2) (acc ++ [v])
        else if e = ']' then some (Json.arr (acc ++ [v]), r2)
        else none
      | [] => none
    | none => none

end

/-- Python `json.loads`: parse one JSON value, allowing surrounding
whitespace only; anything else raises `json.JSONDecodeError`, modelled as
`none`. The fuel is ample: each unit of nesting consumes input. -/
def json_loads (s : String) : Option Json :=
  match pValue (2 * s.data.length + 2) (skipWs s.data) with
  | some (v, rest) => if skipWs rest = [] then some v else none
  | none => none

/-- `extract_text_from_pdf` (lines 50–56 of `main.py`): the pages of the
opened document are modelled as the list of each page's
`page.extract_text()` outcome (`none` when the page yields no text); the
loop `text += page.extract_text() or ""` appends each page's text, with the
empty string substituted for a page without text. -/
def extract_text_from_pdf (pages : List (Option String)) : String :=
  pages.foldl (fun text page => text ++ page.getD "") ""

/-- The module-level `PROMPT` constant (lines 25–48 of `main.py`),
verbatim including the leading and trailing newline of the triple-quoted
literal. -/
def PROMPT : String := "
You are a real estate data extraction expert. I will provide you with the text content of a Japanese real estate PDF document. Your task is to extract specific real estate information and format it as a single JSON object.

The output JSON MUST have the following keys in English. The extracted values should also be translated into English. If a value is not present in the document or a direct translation is not possible (e.g., a specific address), use null.

- **Property Type:** Look for '戸建て', 'マンション', '土地', '1棟マンション', 'アパート'. Translate the found value to English (e.g., '戸建て' -> 'Detached House').
- **Price:** Look for '価格', '値段', '販売価格'.
- **Address:** Look for '所在', '所在地', '住所'.
- **Area:** Look for '面積', '土地面積', '延床面積', '延床', '敷地面積', '建物面積'.
- **Ownership:** Look for '所有権', '借地権', '敷地権'. Translate to English (e.g., '所有権' -> 'Freehold').
- **Shared Ownership:** Look for '持ち分', '共有持分'.
- **Land Category:** Look for '地目', '宅地', '山林'. Translate to English.
- **Road Info:** Look for '道路', '幅員', '長さ', '接道'.
- **Coverage & Floor-to-Area Ratio:** Look for '建ぺい率', '容積率'.
- **Zoning:** Look for '用途地域'. Translate to English.
- **Utilities:** Look for '水道', '下水', 'ガス', '都市ガス', '電気'. Translate to English.
- **Status:** Look for '現況', '居住中', '空き家', '空室'. Translate to English (e.g., '居住中' -> 'Occupied').
- **Transportation:** Look for '駅', '徒歩', '分', '沿線', '交通'.
- **Construction Date:** Look for '築年月', '建築年月', '増改築'.
- **Floor Plan & Structure:** Look for '間取り', '構造', '鉄筋コンクリート', '鉄筋鉄骨コンクリート', '鉄骨', '重量鉄骨', '軽量鉄骨', '木造'. Translate to English (e.g., '木造' -> 'Wooden').
- **Parking:** Look for '車庫', '駐車場'. Translate to English.

The output MUST be a valid JSON object. Do not include any text before or after the JSON.
"

/-- The separator the f-string on line 136 places between `PROMPT` and the
extracted text. -/
def promptSep : String := "\n\nDocument Text:\n"

/-- Detail of the `HTTPException` raised on line 133 for empty text. -/
def emptyTextDetail : String := "Could not extract text from the PDF file."

/-- Detail of the `HTTPException` raised on line 147 on a JSON parse
failure. -/
def parseFailDetail : String := "Failed to parse JSON from Gemini's response. The AI might not have returned a valid JSON object."

/-- The `Content-Disposition` header value set on line 153. -/
def attachmentHeader : String := "attachment; filename=extracted_data.json"

/-- A Python exception as the handler can see one: either an
`HTTPException` carrying a status code and a detail string, or any other
exception carrying its message. -/
inductive PyExc where
  | httpExc (statusCode : Nat) (detail : String)
  | otherExc (msg : String)

/-- Python `str(e)`: Starlette's `HTTPException.__str__` renders the status
code, a colon and a space, then the detail; for other exceptions the
message itself. -/
def pyStr : PyExc → String
  | .httpExc code detail => toString code ++ ": " ++ detail
  | .otherExc msg => msg

/-- The HTTP response the endpoint produces: either the `JSONResponse`
built on lines 150–154 (status 200, JSON content, `Content-Disposition`
header), or the error response FastAPI renders for an uncaught
`HTTPException` (its status code and detail). -/
inductive HttpResult where
  | success (status : Nat) (content : Json) (contentDisposition : String)
  | error (status : Nat) (detail : String)

/-- Lines 156–158: `except Exception as e: raise HTTPException(status_code=500, detail=str(e))`.
Every exception escaping the `try` block — including the handler's own
`HTTPException`s of lines 133 and 147, which subclass `Exception` — becomes
an HTTP 500 response whose detail is `str(e)`. -/
def outerCatch (e : PyExc) : HttpResult :=
  HttpResult.error 500 (pyStr e)

/-- The `POST /extract-data/` handler (lines 118–158 of `main.py`).
`pdf` is the outcome of reading and parsing the upload (`pdf_file.read()`,
`PdfReader`, the per-page `extract_text()` calls), `ai` the outcome of
`model.generate_content(full_prompt)` followed by `.text` for the one
request the handler can make.  The second component of the result records
the payloads sent to the AI service, in order. -/
def extract_data_from_pdf (pdf : Except PyExc (List (Option String))) (ai : Except PyExc String) : HttpResult × List String :=
  match pdf with
  | .error e => (outerCatch e, [])
  | .ok pages =>
    let extracted_text := extract_text_from_pdf pages
    if extracted_text = "" then
      (outerCatch (PyExc.httpExc 400 emptyTextDetail), [])
    else
      let full_prompt := PROMPT ++ promptSep ++ extracted_text
      match ai with
      | .error e => (outerCatch e, [full_prompt])
      | .ok respText =>
        let json_string := stripFences (pyStrip respText)
        match json_loads json_string with
        | none => (outerCatch (PyExc.httpExc 500 parseFailDetail), [full_prompt])
        | some extracted_data =>
          (HttpResult.success 200 extracted_data attachmentHeader, [full_prompt])

/-- The application object: the configured API key and the registered
routes. -/
structure ServerApp where
  apiKey : String
  routes : List String

/-- Module initialization (lines 12–22 of `main.py`): `GEMINI_API_KEY` is
read from the environment; `if not GEMINI_API_KEY: raise ValueError(...)`
runs before `app = FastAPI()` and before any route decorator, so with a
missing key (or an empty one — Python falsiness) no application object with
routes is ever produced. -/
def moduleInit (geminiApiKey : Option String) : Except String ServerApp :=
  if geminiApiKey.getD "" = "" then
    Except.error "GEMINI_API_KEY not found in .env file."
  else
    Except.ok { apiKey := geminiApiKey.getD "", routes := ["/", "/extract-data/"] }

/-! Facts about `replaceDrop` and the fence markers. -/

theorem replaceDropF_nil (p : Char) (ps : List Char) : ∀ f : Nat, replaceDropF p ps f [] = []
  | 0 => rfl
  | Nat.succ _ => rfl

theorem replaceDropF_irrel (p : Char) (ps : List Char) : ∀ f1 f2 s, s.length ≤ f1 → s.length ≤ f2 → replaceDropF p ps f1 s = replaceDropF p ps f2 s := by
  intro f1
  induction f1 with
  | zero =>
    intro f2 s h1 _
    have hs : s = [] := List.eq_nil_of_length_eq_zero (Nat.le_zero.mp h1)
    subst hs
    rw [replaceDropF_nil, replaceDropF_nil]
  | succ g1 ih =>
    intro f2 s h1 h2
    cases s with
    | nil => rw [replaceDropF_nil, replaceDropF_nil]
    | cons c t =>
      cases f2 with
      | zero => simp at h2
      | succ g2 =>
        show (if isPfx (p :: ps) (c :: t) then replaceDropF p ps g1 (List.drop ps.length t)
              else c :: replaceDropF p ps g1 t)
            = (if isPfx (p :: ps) (c :: t) then replaceDropF p ps g2 (List.drop ps.length t)
              else c :: replaceDropF p ps g2 t)
        by_cases h : isPfx (p :: ps) (c :: t) = true
        · rw [if_pos h, if_pos h]
          exact ih g2 (List.drop ps.length t)
            (by simp only [List.length_cons] at h1; simp only [List.length_drop]; omega)
            (by simp only [List.length_cons] at h2; simp only [List.length_drop]; omega)
        · rw [if_neg h, if_neg h]
          rw [ih g2 t (by simp only [List.length_cons] at h1; omega)
            (by simp only [List.length_cons] at h2; omega)]

theorem replaceDrop_cons (p : Char) (ps : List Char) (c : Char) (t : List Char) :
    replaceDrop p ps (c :: t)
      = if isPfx (p :: ps) (c :: t) then replaceDrop p ps (List.drop ps.length t)
        else c :: replaceDrop p ps t := by
  show (if isPfx (p :: ps) (c :: t) then replaceDropF p ps t.length (List.drop ps.length t)
        else c :: replaceDropF p ps t.length t) = _
  by_cases h : isPfx (p :: ps) (c :: t) = true
  · rw [if_pos h, if_pos h]
    exact replaceDropF_irrel p ps t.length (List.drop ps.length t).length (List.drop ps.length t)
      (by simp only [List.length_drop]; omega) le_rfl
  · rw [if_neg h, if_neg h]
    rfl

theorem isPfx_append_left (a : List Char) : ∀ (b s : List Char), isPfx (a ++ b) s = true → isPfx a s = true := by
  induction a with
  | nil => intro b s _; rfl
  | cons x a' ih =>
    intro b s h
    cases s with
    | nil => simp [isPfx] at h
    | cons y t =>
      simp only [List.cons_append, isPfx, Bool.and_eq_true] at h ⊢
      exact ⟨h.1, ih b t h.2⟩

theorem hasSub_append_left (a b : List Char) : ∀ s : List Char, hasSub (a ++ b) s = true → hasSub a s = true := by
  intro s
  induction s with
  | nil =>
    intro h
    simp only [hasSub, List.isEmpty_eq_true, List.append_eq_nil] at h ⊢
    exact h.1
  | cons c t ih =>
    intro h
    simp only [hasSub, Bool.or_eq_true] at h ⊢
    rcases h with h | h
    · exact Or.inl (isPfx_append_left a b (c :: t) h)
    · exact Or.inr (ih h)

theorem replaceDrop_id (p : Char) (ps : List Char) : ∀ s : List Char, hasSub (p :: ps) s = false → replaceDrop p ps s = s := by
  intro s
  induction s with
  | nil => intro _; rfl
  | cons c t ih =>
    intro h
    simp only [hasSub, Bool.or_eq_false_iff] at h
    rw [replaceDrop_cons]
    simp [h.1, ih h.2]

theorem pyReplaceDel_id (pat s : List Char) (hne : pat ≠ []) (h : hasSub pat s = false) : pyReplaceDel pat s = s := by
  match pat with
  | [] => exact absurd rfl hne
  | p :: ps => simpa [pyReplaceDel] using replaceDrop_id p ps s h

theorem leadCount_cons (x a : Char) (t : List Char) : leadCount x (a :: t) = if a = x then leadCount x t + 1 else 0 := rfl

theorem hasSub_cons (pat : List Char) (c : Char) (t : List Char) : hasSub pat (c :: t) = (isPfx pat (c :: t) || hasSub pat t) := rfl

theorem two_le_leadCount_iff (x : Char) (t : List Char) : 2 ≤ leadCount x t ↔ isPfx [x, x] t = true := by
  match t with
  | [] => simp [leadCount, isPfx]
  | [a] =>
    rcases eq_or_ne a x with rfl | h
    · simp [leadCount, isPfx]
    · simp [leadCount, isPfx, h, Ne.symm h]
  | a :: c :: t' =>
    rcases eq_or_ne a x with rfl | h1
    · rcases eq_or_ne c a with rfl | h2
      · simp [leadCount, isPfx]
      · simp [leadCount, isPfx, h2, Ne.symm h2]
    · simp [leadCount, isPfx, h1, Ne.symm h1]

theorem leadCount_replaceDrop3 (s : List Char) : leadCount btick (replaceDrop btick [btick, btick] s) = leadCount btick s % 3 := by
  generalize hn : s.length = n
  induction n using Nat.strong_induction_on generalizing s with
  | _ n ih =>
    cases s with
    | nil => rfl
    | cons c t =>
      rw [replaceDrop_cons]
      by_cases h : isPfx (btick :: [btick, btick]) (c :: t) = true
      · rw [if_pos h]
        have hc : btick = c ∧ isPfx [btick, btick] t = true := by
          simpa [isPfx] using h
        obtain ⟨hc1, hpfx⟩ := hc
        subst hc1
        rcases t with _ | ⟨y, _ | ⟨z, t'⟩⟩
        · simp [isPfx] at hpfx
        · simp [isPfx] at hpfx
        · have hyz : btick = y ∧ btick = z := by simpa [isPfx] using hpfx
          obtain ⟨hy, hz⟩ := hyz
          subst hy
          subst hz
          show leadCount btick (replaceDrop btick [btick, btick] t')
              = leadCount btick (btick :: btick :: btick :: t') % 3
          have hrec := ih t'.length (by simp at hn; omega) t' rfl
          rw [hrec]
          simp [leadCount]
          omega
      · rw [if_neg h]
        have hrec := ih t.length (by simp at hn; omega) t rfl
        rcases eq_or_ne c btick with rfl | hc
        · have ht : isPfx [btick, btick] t = false := by
            rcases Bool.eq_false_or_eq_true (isPfx [btick, btick] t) with htr | hf
            · exact absurd (by simp [isPfx, htr]) h
            · exact hf
          have h1 : leadCount btick t ≤ 1 := by
            by_contra hgt
            push_neg at hgt
            have h2 := (two_le_leadCount_iff btick t).1 (by omega)
            rw [h2] at ht
            exact Bool.noConfusion ht
          rw [leadCount_cons, leadCount_cons, if_pos rfl, if_pos rfl, hrec]
          omega
        · simp [leadCount_cons, hc]

theorem hasSub_replaceDrop3 (s : List Char) : hasSub fence3 (replaceDrop btick [btick, btick] s) = false := by
  generalize hn : s.length = n
  induction n using Nat.strong_induction_on generalizing s with
  | _ n ih =>
    cases s with
    | nil => rfl
    | cons c t =>
      rw [replaceDrop_cons]
      by_cases h : isPfx (btick :: [btick, btick]) (c :: t) = true
      · rw [if_pos h]
        have hc : btick = c ∧ isPfx [btick, btick] t = true := by
          simpa [isPfx] using h
        obtain ⟨hc1, hpfx⟩ := hc
        subst hc1
        rcases t with _ | ⟨y, _ | ⟨z, t'⟩⟩
        · simp [isPfx] at hpfx
        · simp [isPfx] at hpfx
        · show hasSub fence3 (replaceDrop btick [btick, btick] t') = false
          exact ih t'.length (by simp at hn; omega) t' rfl
      · rw [if_neg h]
        have hrec := ih t.length (by simp at hn; omega) t rfl
        rw [hasSub_cons]
        have hpfx : isPfx fence3 (c :: replaceDrop btick [btick, btick] t) = false := by
          rcases eq_or_ne c btick with rfl | hc
          · rcases Bool.eq_false_or_eq_true
              (isPfx [btick, btick] (replaceDrop btick [btick, btick] t)) with htr | hf
            · exfalso
              have h2 : 2 ≤ leadCount btick (replaceDrop btick [btick, btick] t) :=
                (two_le_leadCount_iff btick _).2 htr
              rw [leadCount_replaceDrop3 t] at h2
              have ht : isPfx [btick, btick] t = false := by
                rcases Bool.eq_false_or_eq_true (isPfx [btick, btick] t) with htr' | hf'
                · exact absurd (by simp [isPfx, htr']) h
                · exact hf'
              have h1 : leadCount btick t ≤ 1 := by
                by_contra hgt
                push_neg at hgt
                have h2' := (two_le_leadCount_iff btick t).1 (by omega)
                rw [h2'] at ht
                exact Bool.noConfusion ht
              omega
            · simp [fence3, isPfx, hf]
          · simp [fence3, isPfx, Ne.symm hc]
        rw [hpfx, hrec]
        rfl

theorem fence3_eq_data : ("```" : String).data = fence3 := by decide

theorem fenceJson_eq_data : ("```json" : String).data = fenceJson := by decide

theorem fence3_ne_nil : fence3 ≠ [] := by simp [fence3]

theorem fenceJson_ne_nil : fenceJson ≠ [] := by simp [fenceJson, fence3]

theorem pyReplaceDel_fence3 (x : List Char) : pyReplaceDel fence3 x = replaceDrop btick [btick, btick] x := by
  simp [fence3, pyReplaceDel]

theorem hasSub_fence3_pyReplaceDel (x : List Char) : hasSub fence3 (pyReplaceDel fence3 x) = false := by
  rw [pyReplaceDel_fence3]
  exact hasSub_replaceDrop3 x

theorem hasSub_fenceJson_of_fence3 (x : List Char) (hx : hasSub fence3 x = false) : hasSub fenceJson x = false := by
  rcases Bool.eq_false_or_eq_true (hasSub fenceJson x) with htr | hf
  · exfalso
    have h1 : hasSub (fence3 ++ [Char.ofNat 106, Char.ofNat 115, Char.ofNat 111, Char.ofNat 110]) x = true := htr
    have h2 := hasSub_append_left fence3 _ x h1
    rw [hx] at h2
    exact Bool.noConfusion h2
  · exact hf

/-! Facts about `extract_text_from_pdf`. -/

theorem extract_text_foldl (l : List (Option String)) : ∀ a : String, List.foldl (fun text page => text ++ page.getD "") a l = a ++ extract_text_from_pdf l := by
  induction l with
  | nil =>
    intro a
    show a = a ++ ""
    rw [String.append_empty]
  | cons p ps ih =>
    intro a
    show List.foldl (fun text page => text ++ page.getD "") (a ++ p.getD "") ps
        = a ++ extract_text_from_pdf (p :: ps)
    rw [ih (a ++ p.getD "")]
    rw [show extract_text_from_pdf (p :: ps) = ("" ++ p.getD "") ++ extract_text_from_pdf ps from ih ("" ++ p.getD "")]
    rw [show ("" : String) ++ p.getD "" = p.getD "" from rfl]
    rw [String.append_assoc]

theorem extract_text_cons (p : Option String) (ps : List (Option String)) :
    extract_text_from_pdf (p :: ps) = p.getD "" ++ extract_text_from_pdf ps := by
  rw [show extract_text_from_pdf (p :: ps)
      = List.foldl (fun text page => text ++ page.getD "") ("" ++ p.getD "") ps from rfl]
  rw [extract_text_foldl ps ("" ++ p.getD "")]
  rw [show ("" : String) ++ p.getD "" = p.getD "" from rfl]

theorem extract_text_ne_empty (pages : List (Option String)) (h : ∃ q ∈ pages, q.getD "" ≠ "") :
    extract_text_from_pdf pages ≠ "" := by
  induction pages with
  | nil =>
    obtain ⟨q, hq, _⟩ := h
    exact absurd hq (List.not_mem_nil q)
  | cons p ps ih =>
    obtain ⟨q, hq, hne⟩ := h
    rw [extract_text_cons]
    intro hempty
    have hd : (p.getD "").data ++ (extract_text_from_pdf ps).data = [] := by
      have h1 := congrArg String.data hempty
      rw [String.data_append] at h1
      simpa using h1
    rcases List.append_eq_nil.mp hd with ⟨h1, h2⟩
    rcases List.mem_cons.mp hq with rfl | hmem
    · exact hne (String.ext h1)
    · exact ih ⟨q, hmem, hne⟩ (String.ext h2)

/-! The claims. -/

/-- Claim C1 (code bug): the claim says a PDF whose text extraction
succeeds with the empty string yields HTTP 400.  The code raises
`HTTPException(400, ...)` on line 133, but that exception is caught by the
handler's own `except Exception` on line 156 and re-raised as
`HTTPException(500, str(e))`: on a PDF whose single page yields no text the
endpoint actually answers HTTP 500 with detail
`"400: Could not extract text from the PDF file."`, and no AI request is
made. -/
theorem empty_text_yields_500_not_400 (ai : Except PyExc String) :
    extract_data_from_pdf (Except.ok [none]) ai
      = (HttpResult.error 500 "400: Could not extract text from the PDF file.", []) := rfl

/-- Claim C3: when the AI response is not valid JSON after trimming and
fence-stripping, the endpoint answers HTTP 500 with the dedicated
parse-failure message (wrapped by the outer handler as
`"500: Failed to parse JSON..."`), which is distinct from the message the
empty-text input error produces. -/
theorem parse_failure_returns_500_parse_message (pages : List (Option String)) (resp : String)
    (htext : extract_text_from_pdf pages ≠ "")
    (hparse : json_loads (stripFences (pyStrip resp)) = none) :
    (extract_data_from_pdf (Except.ok pages) (Except.ok resp)).1
      = HttpResult.error 500 ("500: " ++ parseFailDetail)
    ∧ ("500: " ++ parseFailDetail) ≠ ("400: " ++ emptyTextDetail) := by
  constructor
  · rw [show ("500: " ++ parseFailDetail : String) = pyStr (PyExc.httpExc 500 parseFailDetail) from rfl]
    simp [extract_data_from_pdf, htext, hparse, outerCatch]
  · decide

/-- Witness for C3: the spec's own example of a non-JSON AI reply. -/
theorem parse_failure_returns_500_parse_message_witness :
    (extract_data_from_pdf (Except.ok [some "x"]) (Except.ok "Sorry, I cannot process this.")).1
      = HttpResult.error 500 ("500: " ++ parseFailDetail)
    ∧ ("500: " ++ parseFailDetail) ≠ ("400: " ++ emptyTextDetail) :=
  parse_failure_returns_500_parse_message [some "x"] "Sorry, I cannot process this."
    (by decide) (by rfl)

/-- Claim C4: fence-stripping (remove every `` ```json ``, then every
`` ``` ``, anywhere) is idempotent and total: applying it twice equals
applying it once, its output never contains either marker, and a string
containing neither marker is left unchanged. -/
theorem fence_stripping_idempotent_total (s : String) :
    stripFences (stripFences s) = stripFences s
    ∧ hasSubstrS "```json" (stripFences s) = false
    ∧ hasSubstrS "```" (stripFences s) = false
    ∧ (hasSubstrS "```json" s = false → hasSubstrS "```" s = false → stripFences s = s) := by
  have noR3 : hasSub fence3 (pyReplaceDel fence3 (pyReplaceDel fenceJson s.data)) = false :=
    hasSub_fence3_pyReplaceDel (pyReplaceDel fenceJson s.data)
  have noRJ : hasSub fenceJson (pyReplaceDel fence3 (pyReplaceDel fenceJson s.data)) = false :=
    hasSub_fenceJson_of_fence3 _ noR3
  refine ⟨?_, ?_, ?_, ?_⟩
  · show String.mk (pyReplaceDel fence3 (pyReplaceDel fenceJson
        (pyReplaceDel fence3 (pyReplaceDel fenceJson s.data)))) = stripFences s
    rw [pyReplaceDel_id fenceJson _ fenceJson_ne_nil noRJ,
      pyReplaceDel_id fence3 _ fence3_ne_nil noR3]
    rfl
  · show hasSub ("```json" : String).data
        (pyReplaceDel fence3 (pyReplaceDel fenceJson s.data)) = false
    rw [fenceJson_eq_data]
    exact noRJ
  · show hasSub ("```" : String).data
        (pyReplaceDel fence3 (pyReplaceDel fenceJson s.data)) = false
    rw [fence3_eq_data]
    exact noR3
  · intro hJ h3
    have hJ' : hasSub fenceJson s.data = false := by
      rw [← fenceJson_eq_data]
      exact hJ
    have h3' : hasSub fence3 s.data = false := by
      rw [← fence3_eq_data]
      exact h3
    show String.mk (pyReplaceDel fence3 (pyReplaceDel fenceJson s.data)) = s
    rw [pyReplaceDel_id fenceJson _ fenceJson_ne_nil hJ',
      pyReplaceDel_id fence3 _ fence3_ne_nil h3']

/-- Witness for C4: a fence-free string is left unchanged. -/
theorem fence_stripping_idempotent_total_witness :
    stripFences (stripFences "abc") = stripFences "abc" ∧ stripFences "abc" = "abc" :=
  ⟨(fence_stripping_idempotent_total "abc").1,
    (fence_stripping_idempotent_total "abc").2.2.2 (by decide) (by decide)⟩

/-- Claim C5: the text extractor returns the ordered concatenation of the
pages' texts, substituting the empty string for a page without extractable
text (characterized by the two concatenation equations), and a document
with at least one page of non-empty text yields a non-empty result. -/
theorem extract_text_concatenates_pages (p : Option String) (ps pages : List (Option String)) :
    extract_text_from_pdf ([] : List (Option String)) = ""
    ∧ extract_text_from_pdf (p :: ps) = p.getD "" ++ extract_text_from_pdf ps
    ∧ ((∃ q ∈ pages, q.getD "" ≠ "") → extract_text_from_pdf pages ≠ "") :=
  ⟨rfl, extract_text_cons p ps, extract_text_ne_empty pages⟩

/-- Witness for C5: a no-text page followed by a page with text gives a
non-empty concatenation. -/
theorem extract_text_concatenates_pages_witness :
    extract_text_from_pdf [none, some "hi"] ≠ "" :=
  (extract_text_concatenates_pages none [some "hi"] [none, some "hi"]).2.2
    ⟨some "hi", by decide, by decide⟩

/-- Claim C6: any failure other than the empty-text and JSON-parse cases —
an exception while reading or parsing the PDF, or while calling the AI
service — produces HTTP 500 whose message is the stringified underlying
error. -/
theorem unclassified_errors_return_500_str (msg : String) (pages : List (Option String)) (ai : Except PyExc String) :
    extract_data_from_pdf (Except.error (PyExc.otherExc msg)) ai = (HttpResult.error 500 msg, [])
    ∧ (extract_text_from_pdf pages ≠ "" →
        extract_data_from_pdf (Except.ok pages) (Except.error (PyExc.otherExc msg))
          = (HttpResult.error 500 msg, [PROMPT ++ promptSep ++ extract_text_from_pdf pages])) := by
  constructor
  · rfl
  · intro htext
    simp [extract_data_from_pdf, htext, outerCatch, pyStr]

/-- Witness for C6: a failing AI call surfaces its message in a 500. -/
theorem unclassified_errors_return_500_str_witness :
    extract_data_from_pdf (Except.ok [some "x"]) (Except.error (PyExc.otherExc "boom"))
      = (HttpResult.error 500 "boom", [PROMPT ++ promptSep ++ extract_text_from_pdf [some "x"]]) :=
  (unclassified_errors_return_500_str "boom" [some "x"] (Except.ok "")).2 (by decide)

/-- Claim C7: whenever the extracted text is non-empty, exactly one AI
request is made, and its payload is the concatenation of the fixed
instruction block, the literal separator, and the document text. -/
theorem prompt_payload_single_request (pages : List (Option String)) (ai : Except PyExc String)
    (htext : extract_text_from_pdf pages ≠ "") :
    (extract_data_from_pdf (Except.ok pages) ai).2
      = [PROMPT ++ "\n\nDocument Text:\n" ++ extract_text_from_pdf pages] := by
  cases ai with
  | error e => simp [extract_data_from_pdf, htext, promptSep]
  | ok resp =>
    cases hparse : json_loads (stripFences (pyStrip resp)) with
    | none => simp [extract_data_from_pdf, htext, hparse, promptSep]
    | some v => simp [extract_data_from_pdf, htext, hparse, promptSep]

/-- Witness for C7: a one-page document. -/
theorem prompt_payload_single_request_witness :
    (extract_data_from_pdf (Except.ok [some "x"]) (Except.ok "\x7b\x7d")).2
      = [PROMPT ++ "\n\nDocument Text:\n" ++ extract_text_from_pdf [some "x"]] :=
  prompt_payload_single_request [some "x"] (Except.ok "\x7b\x7d") (by decide)

/-- Claim C8: with no AI credential in the environment, module
initialization raises before any route is registered: it yields the
`ValueError` message and never an application object. -/
theorem missing_api_key_fails_startup :
    moduleInit none = Except.error "GEMINI_API_KEY not found in .env file."
    ∧ ∀ a : ServerApp, moduleInit none ≠ Except.ok a := by
  constructor
  · rfl
  · intro a h
    exact Except.noConfusion h

/-- Claim C9: fence removal being a blind global substring replacement,
there is an AI response that is already valid JSON, with `` ``` `` inside a
string field value, for which the endpoint returns a different JSON value
than the raw response denotes: the embedded fence is deleted from the field
value. -/
theorem fence_stripping_corrupts_embedded_fence :
    json_loads "\x7b\"Price\": \"```\"\x7d" = some (Json.obj [("Price", Json.str "```")])
    ∧ (extract_data_from_pdf (Except.ok [some "text"]) (Except.ok "\x7b\"Price\": \"```\"\x7d")).1
        = HttpResult.success 200 (Json.obj [("Price", Json.str "")]) "attachment; filename=extracted_data.json"
    ∧ Json.obj [("Price", Json.str "")] ≠ Json.obj [("Price", Json.str "```")] := by
  refine ⟨rfl, rfl, ?_⟩
  simp

/-- Claim C10: the empty-text check is exactly `text == ""`: a whitespace-only
non-empty extraction does not take the input-error branch; the handler
builds the prompt and issues the AI request. -/
theorem whitespace_only_text_proceeds_to_ai (pages : List (Option String)) (ai : Except PyExc String)
    (htext : extract_text_from_pdf pages ≠ "")
    (_hws : ∀ c ∈ (extract_text_from_pdf pages).data, isPySpace c = true) :
    (extract_data_from_pdf (Except.ok pages) ai).2
      = [PROMPT ++ promptSep ++ extract_text_from_pdf pages] := by
  cases ai with
  | error e => simp [extract_data_from_pdf, htext]
  | ok resp =>
    cases hparse : json_loads (stripFences (pyStrip resp)) with
    | none => simp [extract_data_from_pdf, htext, hparse]
    | some v => simp [extract_data_from_pdf, htext, hparse]

/-- Witness for C10: a single page of one space character. -/
theorem whitespace_only_text_proceeds_to_ai_witness :
    (extract_data_from_pdf (Except.ok [some " "]) (Except.ok "x")).2
      = [PROMPT ++ promptSep ++ extract_text_from_pdf [some " "]] :=
  whitespace_only_text_proceeds_to_ai [some " "] (Except.ok "x") (by decide) (by decide)

end Jpdf2json
